import Mathlib

/-!
Verification development for the MCAS Blink-PIN repository.

Shallow embedding of the core logic of `src/blink_utils.py` and
`src/register_pin.py`:
  - the constants and the blink classifier,
  - the per-frame blink detection state machine of `register_pin.main`
    (lines 107-155), with the reset handler (lines 229-233),
  - the EAR signal smoother (lines 92-96),
  - `calculate_ear` over real-valued points,
  - the JSON user store helpers (`load_users`, `set_user_pin`) and the
    empty-username guard of `register_pin.main` (lines 42-45).

Times and EAR values are modelled as rationals; the SHA-256 digest
(library code, `hashlib`) and the wall clock are passed in as parameters.
-/

namespace MCAS

/-- Constant from `blink_utils.py`: `EAR_THRESHOLD = 0.25`. -/
def EAR_THRESHOLD : ℚ := 1/4

/-- Constant from `blink_utils.py`: `BLINK_DURATION_THRESHOLD = 0.4`. -/
def BLINK_DURATION_THRESHOLD : ℚ := 2/5

/-- Constant from `blink_utils.py`: `MIN_BLINK_INTERVAL = 0.5`. -/
def MIN_BLINK_INTERVAL : ℚ := 1/2

/-- Constant from `blink_utils.py`: `CONSEC_FRAMES = 3`. -/
def CONSEC_FRAMES : ℕ := 3

/-- Constant from `blink_utils.py`: `MAX_BLINKS = 4`. -/
def MAX_BLINKS : ℕ := 4

/-- The dict `BLINK_TO_DIGIT` of `blink_utils.py`; indexing a missing key
would raise in Python, modelled by `none`. -/
def BLINK_TO_DIGIT (b : String) : Option String :=
  if b = "quick" then some "0" else if b = "long" then some "1" else none

/-- The classification of a completed blink by its duration,
`register_pin.py` lines 130-137: the pair (blink_type, digit). -/
def classify_blink (blink_duration : ℚ) : String × String :=
  if blink_duration < BLINK_DURATION_THRESHOLD then ("quick", "0") else ("long", "1")

/-- The mutable per-run detector variables of `register_pin.main`
(lines 58-64): `blink_sequence`, `is_blinking`, `blink_start_time`,
`last_blink_time`, `consec_blinks`. -/
@[ext]
structure DetectorState where
  blink_sequence : List String
  is_blinking : Bool
  blink_start_time : ℚ
  last_blink_time : ℚ
  consec_blinks : ℕ
deriving Repr, DecidableEq

/-- A completed blink event: closure onset and reopening timestamps. -/
structure BlinkEvent where
  start_time : ℚ
  end_time : ℚ
deriving Repr, DecidableEq

/-- One frame of the blink detection logic of `register_pin.main`
(lines 108-155), given the smoothed EAR sample and the current time.
Returns the updated state and the detected blink event, if any:
the event corresponds to the append/print at lines 139-143, which the
code performs only while the sequence still has room. -/
def step (s : DetectorState) (smooth_ear current_time : ℚ) :
    DetectorState × Option BlinkEvent :=
  if smooth_ear < EAR_THRESHOLD then
    if s.is_blinking = false ∧ CONSEC_FRAMES ≤ s.consec_blinks + 1 then
      if MIN_BLINK_INTERVAL < current_time - s.last_blink_time then
        ({ s with consec_blinks := s.consec_blinks + 1,
                  is_blinking := true,
                  blink_start_time := current_time }, none)
      else
        ({ s with consec_blinks := s.consec_blinks + 1 }, none)
    else
      ({ s with consec_blinks := s.consec_blinks + 1 }, none)
  else
    if s.is_blinking = true then
      if s.blink_sequence.length < MAX_BLINKS then
        ({ s with consec_blinks := 0,
                  blink_sequence := s.blink_sequence ++
                    [(classify_blink (current_time - s.blink_start_time)).1],
                  last_blink_time := current_time,
                  is_blinking := false },
         some ⟨s.blink_start_time, current_time⟩)
      else
        ({ s with consec_blinks := 0, is_blinking := false }, none)
    else
      ({ s with consec_blinks := 0 }, none)

/-- Run the detector over a list of (smoothed sample, timestamp) frames,
collecting the emitted blink events in order. -/
def runDetector : DetectorState → List (ℚ × ℚ) → DetectorState × List BlinkEvent
  | s, [] => (s, [])
  | s, f :: rest =>
    let p := step s f.1 f.2
    let r := runDetector p.1 rest
    (r.1, p.2.toList ++ r.2)

/-- The reset handler of `register_pin.main` (lines 229-233): clears the
sequence, `is_blinking` and the counter. -/
def reset_sequence (s : DetectorState) : DetectorState :=
  { s with blink_sequence := [], is_blinking := false, consec_blinks := 0 }

/-- A synthetic input trace of five complete blink cycles (three frames of
closure then one reopening frame each), spaced well past the refractory
interval, starting from time 1. -/
def five_blinks_trace : List (ℚ × ℚ) :=
  [(0, 1), (0, 2), (0, 3), (1, 4),
   (0, 11), (0, 12), (0, 13), (1, 14),
   (0, 21), (0, 22), (0, 23), (1, 24),
   (0, 31), (0, 32), (0, 33), (1, 34),
   (0, 41), (0, 42), (0, 43), (1, 44)]

/-- The EAR history update of `register_pin.main` (lines 92-94): append the
raw sample, then pop the oldest entry once more than 5 are kept. -/
def push_ear (ear_history : List ℚ) (avg_ear : ℚ) : List ℚ :=
  if 5 < (ear_history ++ [avg_ear]).length then (ear_history ++ [avg_ear]).tail
  else ear_history ++ [avg_ear]

/-- The smoothed sample of `register_pin.main` (line 96): the arithmetic
mean of the history, or the raw sample itself when the history is empty. -/
def smooth_of (ear_history : List ℚ) (avg_ear : ℚ) : ℚ :=
  if ear_history = [] then avg_ear else ear_history.sum / (ear_history.length : ℚ)

/-- Run the smoother over a list of raw samples: the final history and the
emitted smoothed samples, in order. -/
def run_smoother : List ℚ → List ℚ → List ℚ × List ℚ
  | hist, [] => (hist, [])
  | hist, a :: rest =>
    let h := push_ear hist a
    let r := run_smoother h rest
    (r.1, smooth_of h a :: r.2)

/-- Euclidean distance between two 2D points, the meaning of
`np.linalg.norm(points[i] - points[j])` in `calculate_ear`. -/
noncomputable def norm2 (p q : ℝ × ℝ) : ℝ :=
  Real.sqrt ((p.1 - q.1) ^ 2 + (p.2 - q.2) ^ 2)

/-- `calculate_ear` of `blink_utils.py` (lines 66-85): the eye aspect
ratio of 6 ordered eye points, returning 0.0 when the horizontal distance
is zero instead of dividing by zero. -/
noncomputable def calculate_ear (eye_points : Fin 6 → ℝ × ℝ) : ℝ :=
  if norm2 (eye_points 0) (eye_points 3) = 0 then 0
  else (norm2 (eye_points 1) (eye_points 5) + norm2 (eye_points 2) (eye_points 4)) /
    (2 * norm2 (eye_points 0) (eye_points 3))

/-! ### JSON user store model (`blink_utils.py` lines 109-171) -/

/-- A JSON value, the shape of what `json.load` and `json.dump` handle. -/
inductive Json where
  | null : Json
  | bool : Bool → Json
  | num : ℚ → Json
  | str : String → Json
  | arr : List Json → Json
  | obj : List (String × Json) → Json

/-- Key lookup in a JSON object body, the meaning of `data[k]` and of the
membership test `k in data` on a parsed dict. -/
def lookupKey : List (String × Json) → String → Option Json
  | [], _ => none
  | p :: rest, k => if p.1 = k then some p.2 else lookupKey rest k

/-- Key update in a JSON object body, the meaning of `data[k] = v` on a
parsed dict: replace the entry in place, or append it when absent. -/
def setKey : List (String × Json) → String → Json → List (String × Json)
  | [], k, v => [(k, v)]
  | p :: rest, k, v =>
    if p.1 = k then (k, v) :: setKey rest k v else p :: setKey rest k v

/-- Whether a JSON value is an object: `isinstance(data, dict)`. -/
def jsonIsObj : Json → Bool
  | Json.obj _ => true
  | _ => false

/-- The top-level keys of a JSON object, in order. -/
def topKeys : Json → List String
  | Json.obj kvs => kvs.map Prod.fst
  | _ => []

/-- The state of the persisted `users.json` file as `load_users` can
encounter it: absent, unreadable or malformed (the `except` path), or
successfully parsed to a JSON value. -/
inductive FileState where
  | absent : FileState
  | unreadable : FileState
  | parsed : Json → FileState

/-- The empty store literal of `blink_utils.py`. -/
def emptyStore : Json := Json.obj [("users", Json.obj [])]

/-- `load_users` of `blink_utils.py` (lines 119-134). -/
def load_users : FileState → Json
  | FileState.absent => emptyStore
  | FileState.unreadable => emptyStore
  | FileState.parsed data =>
    match data with
    | Json.obj kvs =>
      match lookupKey kvs "users" with
      | none => emptyStore
      | some (Json.obj _) => Json.obj kvs
      | some _ => Json.obj (setKey kvs "users" (Json.obj []))
    | _ => emptyStore

/-- `db.setdefault("users", left-brace right-brace)` on a loaded store. -/
def setdefaultUsers : Json → Json
  | Json.obj kvs =>
    match lookupKey kvs "users" with
    | some _ => Json.obj kvs
    | none => Json.obj (kvs ++ [("users", Json.obj [])])
  | j => j

/-- The record written per user by `set_user_pin` (lines 148-152); the
SHA-256 digest (`hashlib`, library code) and the wall clock (`time.time`)
are parameters. -/
def pin_record (hash_pin : String → String) (pin_plain : String) (now : ℚ) : Json :=
  Json.obj [("pin_hash", Json.str (hash_pin pin_plain)),
            ("pin_length", Json.num (pin_plain.length : ℚ)),
            ("updated_at", Json.num now)]

/-- `set_user_pin` of `blink_utils.py` (lines 144-153): load, set-default,
write the user record, and return the whole store handed to `save_users`.
The non-object fallthrough cases cannot arise: `load_users` always yields
an object with a "users" object entry. -/
def set_user_pin (hash_pin : String → String) (fs : FileState)
    (username pin_plain : String) (now : ℚ) : Json :=
  match setdefaultUsers (load_users fs) with
  | Json.obj kvs =>
    Json.obj (setKey kvs "users"
      (Json.obj (setKey
        (match lookupKey kvs "users" with
         | some (Json.obj ukvs) => ukvs
         | _ => [])
        username (pin_record hash_pin pin_plain now))))
  | j => j

/-- The users mapping of a loaded store, as read by `get_user_pin_hash`
and `get_user_pin_length` via `db.get("users", ...)`. -/
def get_users : Json → List (String × Json)
  | Json.obj kvs =>
    match lookupKey kvs "users" with
    | some (Json.obj ukvs) => ukvs
    | _ => []
  | _ => []

/-- Outcome of a run of `register_pin.main` after the capture loop. -/
inductive RegistrationOutcome where
  | empty_username : RegistrationOutcome
  | incomplete : RegistrationOutcome
  | saved : RegistrationOutcome
deriving Repr, DecidableEq

/-- The store-relevant flow of `register_pin.main`: the (stripped)
username is rejected when empty before any capture or store access
(lines 42-45); after capture, the PIN string is joined from the digits and
persisted via `set_user_pin` only when the sequence is complete
(lines 244-251). Indexing the digit dict cannot miss: the sequence only
ever holds quick or long. Returns the resulting file state and outcome. -/
def main_register (hash_pin : String → String) (username : String)
    (blink_sequence : List String) (fs : FileState) (now : ℚ) :
    FileState × RegistrationOutcome :=
  if username = "" then (fs, RegistrationOutcome.empty_username)
  else if MAX_BLINKS ≤ blink_sequence.length then
    (FileState.parsed (set_user_pin hash_pin fs username
      (String.join (blink_sequence.map (fun b => (BLINK_TO_DIGIT b).getD ""))) now),
     RegistrationOutcome.saved)
  else (fs, RegistrationOutcome.incomplete)

/-! ### Per-branch lemmas for `step` -/

theorem step_below_blinking (s : DetectorState) (e t : ℚ)
    (hb : s.is_blinking = true) (he : e < EAR_THRESHOLD) :
    step s e t = ({ s with consec_blinks := s.consec_blinks + 1 }, none) := by
  simp [step, he, hb]

theorem step_below_confirm (s : DetectorState) (e t : ℚ)
    (hb : s.is_blinking = false) (he : e < EAR_THRESHOLD)
    (hc : CONSEC_FRAMES ≤ s.consec_blinks + 1)
    (hi : MIN_BLINK_INTERVAL < t - s.last_blink_time) :
    step s e t = ({ s with
        consec_blinks := s.consec_blinks + 1,
        is_blinking := true,
        blink_start_time := t }, none) := by
  simp [step, he, hb, hc, hi]

theorem step_below_low (s : DetectorState) (e t : ℚ)
    (hb : s.is_blinking = false) (he : e < EAR_THRESHOLD)
    (hc : s.consec_blinks + 1 < CONSEC_FRAMES) :
    step s e t = ({ s with consec_blinks := s.consec_blinks + 1 }, none) := by
  simp [step, he, hb, Nat.not_le.mpr hc]

theorem step_below_blocked (s : DetectorState) (e t : ℚ)
    (hb : s.is_blinking = false) (he : e < EAR_THRESHOLD)
    (hi : ¬ MIN_BLINK_INTERVAL < t - s.last_blink_time) :
    step s e t = ({ s with consec_blinks := s.consec_blinks + 1 }, none) := by
  by_cases hc : CONSEC_FRAMES ≤ s.consec_blinks + 1 <;>
    simp [step, he, hb, hc, hi]

theorem step_above_open (s : DetectorState) (e t : ℚ)
    (hb : s.is_blinking = false) (he : ¬ e < EAR_THRESHOLD) :
    step s e t = ({ s with consec_blinks := 0 }, none) := by
  simp [step, he, hb]

theorem step_reopen_emit (s : DetectorState) (e t : ℚ)
    (hb : s.is_blinking = true) (he : ¬ e < EAR_THRESHOLD)
    (hl : s.blink_sequence.length < MAX_BLINKS) :
    step s e t = ({ s with
        consec_blinks := 0,
        blink_sequence := s.blink_sequence ++
          [(classify_blink (t - s.blink_start_time)).1],
        last_blink_time := t,
        is_blinking := false },
      some ⟨s.blink_start_time, t⟩) := by
  simp [step, he, hb, hl]

theorem step_reopen_drop (s : DetectorState) (e t : ℚ)
    (hb : s.is_blinking = true) (he : ¬ e < EAR_THRESHOLD)
    (hl : ¬ s.blink_sequence.length < MAX_BLINKS) :
    step s e t = ({ s with consec_blinks := 0, is_blinking := false }, none) := by
  simp [step, he, hb, hl]

/-! ### Run-level lemmas for the detector -/

theorem runDetector_nil (s : DetectorState) : runDetector s [] = (s, []) := rfl

theorem runDetector_cons (s : DetectorState) (f : ℚ × ℚ) (rest : List (ℚ × ℚ)) :
    runDetector s (f :: rest) =
      ((runDetector (step s f.1 f.2).1 rest).1,
       (step s f.1 f.2).2.toList ++ (runDetector (step s f.1 f.2).1 rest).2) := rfl

theorem runDetector_append (s : DetectorState) (L1 L2 : List (ℚ × ℚ)) :
    runDetector s (L1 ++ L2) =
      ((runDetector (runDetector s L1).1 L2).1,
       (runDetector s L1).2 ++ (runDetector (runDetector s L1).1 L2).2) := by
  induction L1 generalizing s with
  | nil => simp [runDetector_nil]
  | cons f L ih =>
    simp only [List.cons_append, runDetector_cons, ih, List.append_assoc]

/-- Feeding below-threshold frames while a blink is in progress only
increments the counter and emits nothing. -/
theorem run_below_blinking (L : List (ℚ × ℚ)) :
    ∀ s : DetectorState, s.is_blinking = true →
      (∀ f ∈ L, f.1 < EAR_THRESHOLD) →
      runDetector s L = ({ s with consec_blinks := s.consec_blinks + L.length }, []) := by
  induction L with
  | nil => intro s hb _; simp [runDetector_nil]
  | cons f L ih =>
    intro s hb h
    have hf := h f (List.mem_cons_self f L)
    rw [runDetector_cons, step_below_blinking s f.1 f.2 hb hf]
    dsimp only [Option.toList]
    rw [ih { s with consec_blinks := s.consec_blinks + 1 } hb
      (fun g hg => h g (List.mem_cons_of_mem f hg))]
    simp only [List.nil_append, List.length_cons, Prod.mk.injEq,
      DetectorState.mk.injEq, true_and, and_true]
    omega

/-- Feeding below-threshold frames from the open state with the refractory
interval elapsed: the counter counts the frames, nothing is emitted, the
sequence and the last blink time are untouched, and the state is
in-progress exactly once the counter has reached `CONSEC_FRAMES`. -/
theorem run_below_open (L : List (ℚ × ℚ)) :
    ∀ s : DetectorState, s.is_blinking = false →
      s.consec_blinks < CONSEC_FRAMES →
      (∀ f ∈ L, f.1 < EAR_THRESHOLD ∧ MIN_BLINK_INTERVAL < f.2 - s.last_blink_time) →
      ∃ b, runDetector s L =
        (⟨s.blink_sequence, decide (CONSEC_FRAMES ≤ s.consec_blinks + L.length),
          b, s.last_blink_time, s.consec_blinks + L.length⟩, []) := by
  induction L with
  | nil =>
    intro s hb hc _
    refine ⟨s.blink_start_time, ?_⟩
    have hd : decide (CONSEC_FRAMES ≤ s.consec_blinks + ([] : List (ℚ × ℚ)).length)
        = false := by
      simp only [List.length_nil, Nat.add_zero, decide_eq_false_iff_not]
      omega
    rw [runDetector_nil, hd]
    obtain ⟨seq, ib, st, lt, c⟩ := s
    simp only at hb
    subst hb
    rfl
  | cons f L ih =>
    intro s hb hc h
    have hf := (h f (List.mem_cons_self f L)).1
    have hi := (h f (List.mem_cons_self f L)).2
    have hrest := fun g hg => h g (List.mem_cons_of_mem f hg)
    by_cases hc3 : CONSEC_FRAMES ≤ s.consec_blinks + 1
    · refine ⟨f.2, ?_⟩
      rw [runDetector_cons, step_below_confirm s f.1 f.2 hb hf hc3 hi]
      dsimp only [Option.toList]
      rw [run_below_blinking L
        { s with consec_blinks := s.consec_blinks + 1,
                 is_blinking := true,
                 blink_start_time := f.2 }
        rfl (fun g hg => (hrest g hg).1)]
      have hd : decide (CONSEC_FRAMES ≤ s.consec_blinks + (f :: L).length) = true := by
        simp only [List.length_cons, decide_eq_true_eq]
        omega
      rw [hd]
      simp only [List.nil_append, List.length_cons, Prod.mk.injEq,
        DetectorState.mk.injEq, true_and, and_true]
      omega
    · have hlow : s.consec_blinks + 1 < CONSEC_FRAMES := by omega
      rw [runDetector_cons, step_below_low s f.1 f.2 hb hf hlow]
      dsimp only [Option.toList]
      obtain ⟨b, h2⟩ := ih { s with consec_blinks := s.consec_blinks + 1 } hb hlow hrest
      rw [h2]
      refine ⟨b, ?_⟩
      have hadd : s.consec_blinks + 1 + L.length = s.consec_blinks + (f :: L).length := by
        simp only [List.length_cons]
        omega
      simp only [List.nil_append]
      rw [hadd]

/-- Feeding below-threshold frames from the open state while the refractory
interval has not yet elapsed on any of them: the counter counts the frames
but no transition to the in-progress state happens and nothing is emitted. -/
theorem run_below_suppressed (L : List (ℚ × ℚ)) :
    ∀ s : DetectorState, s.is_blinking = false →
      (∀ f ∈ L, f.1 < EAR_THRESHOLD ∧ ¬ MIN_BLINK_INTERVAL < f.2 - s.last_blink_time) →
      runDetector s L = ({ s with consec_blinks := s.consec_blinks + L.length }, []) := by
  induction L with
  | nil => intro s _ _; simp [runDetector_nil]
  | cons f L ih =>
    intro s hb h
    have hf := (h f (List.mem_cons_self f L)).1
    have hi := (h f (List.mem_cons_self f L)).2
    rw [runDetector_cons, step_below_blocked s f.1 f.2 hb hf hi]
    dsimp only [Option.toList]
    rw [ih { s with consec_blinks := s.consec_blinks + 1 } hb
      (fun g hg => h g (List.mem_cons_of_mem f hg))]
    simp only [List.nil_append, List.length_cons, Prod.mk.injEq,
      DetectorState.mk.injEq, true_and, and_true]
    omega

/-- Claim C1: starting the detector in the open state with counter 0, an
empty sequence and the refractory interval elapsed, a run of N strictly
below-threshold smoothed samples followed by one sample at or above the
threshold emits exactly one blink event when N is at least CONSEC_FRAMES
and zero events otherwise. -/
theorem blink_detector_single_event (l b0 : ℚ) (below : List (ℚ × ℚ)) (a : ℚ × ℚ)
    (hbelow : ∀ f ∈ below, f.1 < EAR_THRESHOLD ∧ MIN_BLINK_INTERVAL < f.2 - l)
    (ha : ¬ a.1 < EAR_THRESHOLD) :
    (runDetector ⟨[], false, b0, l, 0⟩ (below ++ [a])).2.length =
      if CONSEC_FRAMES ≤ below.length then 1 else 0 := by
  obtain ⟨b, h1⟩ := run_below_open below ⟨[], false, b0, l, 0⟩ rfl
    (by simp [CONSEC_FRAMES]) hbelow
  rw [runDetector_append, h1]
  by_cases hN : CONSEC_FRAMES ≤ below.length
  · have hd : decide (CONSEC_FRAMES ≤ 0 + below.length) = true := by
      simp only [Nat.zero_add, decide_eq_true_eq]; exact hN
    rw [hd]
    rw [runDetector_cons,
      step_reopen_emit (DetectorState.mk [] true b l (0 + below.length)) a.1 a.2
        rfl ha (by simp [MAX_BLINKS])]
    simp [runDetector_nil, hN]
  · have hd : decide (CONSEC_FRAMES ≤ 0 + below.length) = false := by
      simp only [Nat.zero_add, decide_eq_false_iff_not]; exact hN
    rw [hd]
    rw [runDetector_cons,
      step_above_open (DetectorState.mk [] false b l (0 + below.length)) a.1 a.2
        rfl ha]
    simp [runDetector_nil, hN]

/-- Witness for C1: three below-threshold frames then one above-threshold
frame, with the refractory interval elapsed, give exactly one event. -/
theorem blink_detector_single_event_witness :
    (∀ f ∈ [((1 : ℚ)/10, (1 : ℚ)), (1/10, 2), (1/10, 3)],
        f.1 < EAR_THRESHOLD ∧ MIN_BLINK_INTERVAL < f.2 - 0) ∧
    (runDetector ⟨[], false, 0, 0, 0⟩
        ([((1 : ℚ)/10, (1 : ℚ)), (1/10, 2), (1/10, 3)] ++ [(3/10, 4)])).2.length =
      if CONSEC_FRAMES ≤ ([((1 : ℚ)/10, (1 : ℚ)), (1/10, 2), (1/10, 3)]).length
      then 1 else 0 :=
  ⟨by norm_num [EAR_THRESHOLD, MIN_BLINK_INTERVAL],
   blink_detector_single_event 0 0 _ (3/10, 4)
     (by norm_num [EAR_THRESHOLD, MIN_BLINK_INTERVAL])
     (by norm_num [EAR_THRESHOLD])⟩

/-- Claim C2: after a first registered blink ending at the reopening frame
a1, a second closure whose below-threshold frames all fall within
MIN_BLINK_INTERVAL of that end never transitions to the confirmed-closed
state and emits no event: the whole two-closure trace registers exactly
the first blink. -/
theorem blink_detector_refractory (l b0 : ℚ) (L1 L2 : List (ℚ × ℚ)) (a1 a2 : ℚ × ℚ)
    (hL1 : ∀ f ∈ L1, f.1 < EAR_THRESHOLD ∧ MIN_BLINK_INTERVAL < f.2 - l)
    (hN1 : CONSEC_FRAMES ≤ L1.length)
    (ha1 : ¬ a1.1 < EAR_THRESHOLD)
    (hL2 : ∀ f ∈ L2, f.1 < EAR_THRESHOLD ∧ ¬ MIN_BLINK_INTERVAL < f.2 - a1.2)
    (ha2 : ¬ a2.1 < EAR_THRESHOLD) :
    (runDetector ⟨[], false, b0, l, 0⟩ (L1 ++ [a1] ++ L2 ++ [a2])).2.length = 1 ∧
    (runDetector ⟨[], false, b0, l, 0⟩ (L1 ++ [a1] ++ L2)).1.is_blinking = false := by
  obtain ⟨b, h1⟩ := run_below_open L1 ⟨[], false, b0, l, 0⟩ rfl
    (by simp [CONSEC_FRAMES]) hL1
  have hd : decide (CONSEC_FRAMES ≤ 0 + L1.length) = true := by
    simp only [Nat.zero_add, decide_eq_true_eq]; exact hN1
  rw [hd] at h1
  have key : runDetector ⟨[], false, b0, l, 0⟩ ((L1 ++ [a1]) ++ L2) =
      (DetectorState.mk [(classify_blink (a1.2 - b)).1] false b a1.2 (0 + L2.length),
       [⟨b, a1.2⟩]) := by
    rw [runDetector_append, runDetector_append, h1]
    dsimp only [Option.toList, List.nil_append]
    rw [runDetector_cons,
      step_reopen_emit (DetectorState.mk [] true b l (0 + L1.length)) a1.1 a1.2 rfl ha1
        (by simp [MAX_BLINKS])]
    dsimp only [Option.toList, List.nil_append]
    rw [runDetector_nil]
    dsimp only
    rw [run_below_suppressed L2
      (DetectorState.mk [(classify_blink (a1.2 - b)).1] false b a1.2 0) rfl hL2]
    simp
  constructor
  · rw [runDetector_append, key]
    dsimp only [Option.toList, List.nil_append]
    rw [runDetector_cons,
      step_above_open
        (DetectorState.mk [(classify_blink (a1.2 - b)).1] false b a1.2 (0 + L2.length))
        a2.1 a2.2 rfl ha2,
      runDetector_nil]
    simp
  · rw [key]

/-- Witness for C2: first blink confirmed at times -3, -2, -1 and ending at
time 0; second closure at times 0.1, 0.15, 0.2 (within the 0.5s interval)
and reopening at 0.3: exactly one event, and the second closure is never
confirmed. -/
theorem blink_detector_refractory_witness :
    (runDetector ⟨[], false, 0, -10, 0⟩
        ([((0 : ℚ), (-3 : ℚ)), (0, -2), (0, -1)] ++ [((1 : ℚ), (0 : ℚ))] ++
         [((0 : ℚ), 1/10), (0, 3/20), (0, 1/5)] ++ [((1 : ℚ), 3/10)])).2.length = 1 ∧
    (runDetector ⟨[], false, 0, -10, 0⟩
        ([((0 : ℚ), (-3 : ℚ)), (0, -2), (0, -1)] ++ [((1 : ℚ), (0 : ℚ))] ++
         [((0 : ℚ), 1/10), (0, 3/20), (0, 1/5)])).1.is_blinking = false :=
  blink_detector_refractory (-10) 0 _ _ _ _
    (by norm_num [EAR_THRESHOLD, MIN_BLINK_INTERVAL])
    (by norm_num [CONSEC_FRAMES])
    (by norm_num [EAR_THRESHOLD])
    (by norm_num [EAR_THRESHOLD, MIN_BLINK_INTERVAL])
    (by norm_num [EAR_THRESHOLD])

/-- Claim C9: on a reopening frame while a blink is in progress and the
sequence is already full, the event is dropped without appending a symbol,
`is_blinking` and the counter are cleared, and every other field, in
particular `last_blink_time`, is unchanged. -/
theorem reopen_full_sequence_drops (s : DetectorState) (e t : ℚ)
    (hb : s.is_blinking = true) (hl : s.blink_sequence.length = MAX_BLINKS)
    (he : ¬ e < EAR_THRESHOLD) :
    step s e t = ({ s with is_blinking := false, consec_blinks := 0 }, none) := by
  have hnl : ¬ s.blink_sequence.length < MAX_BLINKS := by omega
  rw [step_reopen_drop s e t hb he hnl]

/-- Witness for C9: a full sequence, a reopening frame: no event, cleared
flags, untouched `last_blink_time`. -/
theorem reopen_full_sequence_drops_witness :
    (["quick", "long", "quick", "long"] : List String).length = MAX_BLINKS ∧
    step ⟨["quick", "long", "quick", "long"], true, 1, 7, 2⟩ 1 9 =
      (⟨["quick", "long", "quick", "long"], false, 1, 7, 0⟩, none) :=
  ⟨rfl,
   by rw [reopen_full_sequence_drops ⟨["quick", "long", "quick", "long"], true, 1, 7, 2⟩
       1 9 rfl rfl (by norm_num [EAR_THRESHOLD])]⟩

/-- Claim C5: the sequence accumulator never exceeds MAX_BLINKS: a step
from a full sequence never changes it, any step preserves the bound, five
complete blink cycles from the empty sequence leave exactly MAX_BLINKS
symbols, and the reset handler returns the length to 0. -/
theorem pin_sequence_capped :
    (∀ (s : DetectorState) (e t : ℚ), s.blink_sequence.length ≤ MAX_BLINKS →
        (step s e t).1.blink_sequence.length ≤ MAX_BLINKS)
    ∧ (∀ (s : DetectorState) (e t : ℚ), s.blink_sequence.length = MAX_BLINKS →
        (step s e t).1.blink_sequence = s.blink_sequence)
    ∧ (runDetector ⟨[], false, 0, 0, 0⟩ five_blinks_trace).1.blink_sequence.length
        = MAX_BLINKS
    ∧ (∀ s : DetectorState, (reset_sequence s).blink_sequence.length = 0) := by
  refine ⟨?_, ?_, ?_, fun s => rfl⟩
  · intro s e t h
    unfold step
    split_ifs <;> simp_all
    omega
  · intro s e t h
    unfold step
    split_ifs <;> simp_all
  · norm_num [five_blinks_trace, runDetector, step, classify_blink,
      EAR_THRESHOLD, MIN_BLINK_INTERVAL, CONSEC_FRAMES, MAX_BLINKS,
      BLINK_DURATION_THRESHOLD]

/-- Witness for C5: the bound hypothesis and the full-sequence no-op
hypothesis discharged at concrete states. -/
theorem pin_sequence_capped_witness :
    (step (DetectorState.mk [] false 0 0 0) 0 1).1.blink_sequence.length ≤ MAX_BLINKS
    ∧ (step (DetectorState.mk ["long", "long", "long", "long"] true 0 0 0) 1 2).1.blink_sequence
        = ["long", "long", "long", "long"] :=
  ⟨pin_sequence_capped.1 _ 0 1 (by decide), pin_sequence_capped.2.1 _ 1 2 rfl⟩

/-- Claim C4: the classifier maps a duration strictly below
BLINK_DURATION_THRESHOLD to quick with digit 0 and any other duration to
long with digit 1; in particular 0.39 is quick, exactly 0.4 is long, and
0.41 is long. -/
theorem blink_classifier_boundary :
    (∀ d : ℚ, classify_blink d = ("quick", "0") ↔ d < BLINK_DURATION_THRESHOLD)
    ∧ (∀ d : ℚ, classify_blink d = ("long", "1") ↔ ¬ d < BLINK_DURATION_THRESHOLD)
    ∧ classify_blink (39/100) = ("quick", "0")
    ∧ classify_blink (2/5) = ("long", "1")
    ∧ classify_blink (41/100) = ("long", "1") := by
  refine ⟨fun d => ?_, fun d => ?_, ?_, ?_, ?_⟩
  · unfold classify_blink; split_ifs with h <;> simp [h]
  · unfold classify_blink; split_ifs with h <;> simp [h]
  · norm_num [classify_blink, BLINK_DURATION_THRESHOLD]
  · norm_num [classify_blink, BLINK_DURATION_THRESHOLD]
  · norm_num [classify_blink, BLINK_DURATION_THRESHOLD]

/-! ### Smoother lemmas -/

theorem run_smoother_nil (hist : List ℚ) : run_smoother hist [] = (hist, []) := rfl

theorem run_smoother_cons (hist : List ℚ) (a : ℚ) (rest : List ℚ) :
    run_smoother hist (a :: rest) =
      ((run_smoother (push_ear hist a) rest).1,
       smooth_of (push_ear hist a) a :: (run_smoother (push_ear hist a) rest).2) := rfl

theorem run_smoother_append (hist : List ℚ) (A B : List ℚ) :
    run_smoother hist (A ++ B) =
      ((run_smoother (run_smoother hist A).1 B).1,
       (run_smoother hist A).2 ++ (run_smoother (run_smoother hist A).1 B).2) := by
  induction A generalizing hist with
  | nil => simp [run_smoother_nil]
  | cons a A ih =>
    simp only [List.cons_append, run_smoother_cons, ih]

theorem push_ear_length (hist : List ℚ) (v : ℚ) (h : hist.length ≤ 5) :
    (push_ear hist v).length ≤ 5 := by
  unfold push_ear
  split_ifs with h1 <;> simp_all

theorem replicate_suffix_mono (v : ℚ) {i j : ℕ} (h : i ≤ j) :
    List.replicate i v <:+ List.replicate j v :=
  ⟨List.replicate (j - i) v, by rw [← List.replicate_add]; congr 1; omega⟩

theorem suffix_tail_of_lt {α : Type} {s l : List α} (h : s <:+ l)
    (hlt : s.length < l.length) : s <:+ l.tail := by
  obtain ⟨t, ht⟩ := h
  cases t with
  | nil =>
    rw [List.nil_append] at ht
    subst ht
    exact absurd hlt (lt_irrefl _)
  | cons a t2 =>
    exact ⟨t2, by rw [← ht]; rfl⟩

theorem push_ear_suffix (hist : List ℚ) (v : ℚ) (m : ℕ)
    (hlen : hist.length ≤ 5) (hs : List.replicate m v <:+ hist) :
    List.replicate (min (m + 1) 5) v <:+ push_ear hist v := by
  have hm : m ≤ 5 := by
    have h2 := hs.length_le
    simp only [List.length_replicate] at h2
    omega
  have hsucc : List.replicate (m + 1) v <:+ hist ++ [v] := by
    obtain ⟨t, ht⟩ := hs
    exact ⟨t, by rw [List.replicate_succ', ← List.append_assoc, ht]⟩
  unfold push_ear
  split_ifs with hgt
  · have hl6 : (hist ++ [v]).length = 6 := by
      simp only [List.length_append, List.length_singleton] at hgt ⊢
      omega
    by_cases hm5 : m + 1 ≤ 5
    · have h3 : List.replicate (m + 1) v <:+ (hist ++ [v]).tail :=
        suffix_tail_of_lt hsucc (by simp only [List.length_replicate, hl6]; omega)
      rw [Nat.min_eq_left hm5]
      exact h3
    · have hm6 : m + 1 = 6 := by omega
      have heq : hist ++ [v] = List.replicate 6 v := by
        obtain ⟨t, ht⟩ := hsucc
        have hlt : t.length = 0 := by
          have h4 := congrArg List.length ht
          simp only [List.length_append, List.length_replicate, hl6, hm6] at h4
          omega
        rw [List.eq_nil_of_length_eq_zero hlt, List.nil_append, hm6] at ht
        exact ht.symm
      rw [heq, Nat.min_eq_right (by omega)]
      have ht6 : (List.replicate 6 v).tail = List.replicate 5 v := by
        rw [show (6 : ℕ) = 5 + 1 from rfl, List.replicate_succ, List.tail_cons]
      rw [ht6]
  · exact (replicate_suffix_mono v (Nat.min_le_left _ _)).trans hsucc

theorem run_smoother_inv (v : ℚ) :
    ∀ (k : ℕ) (hist : List ℚ) (m : ℕ), hist.length ≤ 5 → m ≤ 5 →
      List.replicate m v <:+ hist →
      (run_smoother hist (List.replicate k v)).1.length ≤ 5 ∧
      List.replicate (min (m + k) 5) v <:+ (run_smoother hist (List.replicate k v)).1 := by
  intro k
  induction k with
  | zero =>
    intro hist m hl hm hs
    rw [List.replicate_zero, run_smoother_nil]
    exact ⟨hl, by rw [Nat.add_zero, Nat.min_eq_left hm]; exact hs⟩
  | succ k ih =>
    intro hist m hl hm hs
    rw [List.replicate_succ, run_smoother_cons]
    have h1 := push_ear_length hist v hl
    have h2 := push_ear_suffix hist v m hl hs
    have h3 := ih (push_ear hist v) (min (m + 1) 5) h1 (Nat.min_le_right _ _) h2
    refine ⟨h3.1, ?_⟩
    have h4 : min (m + (k + 1)) 5 = min (min (m + 1) 5 + k) 5 := by omega
    rw [h4]
    exact h3.2

theorem run_smoother_replicate_eq (hist : List ℚ) (v : ℚ) (n : ℕ)
    (hl : hist.length ≤ 5) (hn : 5 ≤ n) :
    (run_smoother hist (List.replicate n v)).1 = List.replicate 5 v := by
  obtain ⟨h1, h2⟩ := run_smoother_inv v n hist 0 hl (by omega)
    (by rw [List.replicate_zero]; exact List.nil_suffix)
  rw [show min (0 + n) 5 = 5 by omega] at h2
  have hge := h2.length_le
  simp only [List.length_replicate] at hge
  exact (h2.eq_of_length (by simp only [List.length_replicate]; omega)).symm

/-- Claim C8: feeding the smoother a constant raw sample v for at least 5
consecutive frames makes the emitted smoothed sample exactly v. -/
theorem smoother_constant_stream (hist : List ℚ) (v : ℚ) (n : ℕ)
    (hlen : hist.length ≤ 5) (hn : 5 ≤ n) :
    (run_smoother hist (List.replicate n v)).2.getLast? = some v := by
  obtain ⟨k, rfl⟩ : ∃ k, n = k + 1 := ⟨n - 1, by omega⟩
  have h5 : push_ear (run_smoother hist (List.replicate k v)).1 v = List.replicate 5 v := by
    have htot := run_smoother_replicate_eq hist v (k + 1) hlen hn
    rw [List.replicate_succ', run_smoother_append, run_smoother_cons,
      run_smoother_nil] at htot
    exact htot
  rw [List.replicate_succ', run_smoother_append, run_smoother_cons, run_smoother_nil]
  dsimp only
  rw [List.getLast?_concat, h5]
  have hne : List.replicate 5 v ≠ [] := by simp
  rw [smooth_of, if_neg hne]
  simp only [List.sum_replicate, List.length_replicate, nsmul_eq_mul, Nat.cast_ofNat,
    Option.some.injEq]
  rw [mul_div_cancel_left₀ v (by norm_num)]

/-- Witness for C8: from an empty history, five constant samples of 3/10
make the last emitted smoothed sample exactly 3/10. -/
theorem smoother_constant_stream_witness :
    ([] : List ℚ).length ≤ 5 ∧
    (run_smoother [] (List.replicate 5 ((3 : ℚ)/10))).2.getLast? = some (3/10) :=
  ⟨by decide, smoother_constant_stream [] (3/10) 5 (by decide) (by decide)⟩

/-- Claim C6: with zero horizontal distance the EAR is exactly 0 and no
division happens; otherwise the EAR is the standard formula. -/
theorem calculate_ear_safe (p : Fin 6 → ℝ × ℝ) :
    (norm2 (p 0) (p 3) = 0 → calculate_ear p = 0) ∧
    (norm2 (p 0) (p 3) ≠ 0 → calculate_ear p =
      (norm2 (p 1) (p 5) + norm2 (p 2) (p 4)) / (2 * norm2 (p 0) (p 3))) := by
  constructor
  · intro h; simp only [calculate_ear]; rw [if_pos h]
  · intro h; simp only [calculate_ear]; rw [if_neg h]

/-- Witness for C6: six coincident points have zero horizontal distance
and EAR exactly 0. -/
theorem calculate_ear_safe_witness :
    norm2 ((fun _ : Fin 6 => ((0 : ℝ), (0 : ℝ))) 0)
      ((fun _ : Fin 6 => ((0 : ℝ), (0 : ℝ))) 3) = 0 ∧
    calculate_ear (fun _ : Fin 6 => ((0 : ℝ), (0 : ℝ))) = 0 := by
  have h : norm2 ((fun _ : Fin 6 => ((0 : ℝ), (0 : ℝ))) 0)
      ((fun _ : Fin 6 => ((0 : ℝ), (0 : ℝ))) 3) = 0 := by
    simp [norm2]
  exact ⟨h, (calculate_ear_safe (fun _ : Fin 6 => ((0 : ℝ), (0 : ℝ)))).1 h⟩

/-! ### Assoc-list lemmas for the store -/

theorem lookupKey_setKey_self (kvs : List (String × Json)) (k : String) (v : Json) :
    lookupKey (setKey kvs k v) k = some v := by
  induction kvs with
  | nil => simp [setKey, lookupKey]
  | cons p rest ih =>
    by_cases h : p.1 = k
    · simp [setKey, lookupKey, h]
    · simp [setKey, lookupKey, h, ih]

theorem lookupKey_setKey_other (kvs : List (String × Json)) (k k2 : String) (v : Json)
    (h : k2 ≠ k) : lookupKey (setKey kvs k v) k2 = lookupKey kvs k2 := by
  induction kvs with
  | nil => simp [setKey, lookupKey, Ne.symm h]
  | cons p rest ih =>
    by_cases hp : p.1 = k
    · have hp2 : p.1 ≠ k2 := by rw [hp]; exact Ne.symm h
      simp [setKey, lookupKey, hp, hp2, Ne.symm h, ih]
    · simp [setKey, lookupKey, hp, ih]

/-- The shape of every loaded store: a JSON object whose "users" entry is
present and is itself an object. -/
theorem load_users_shape (fs : FileState) :
    ∃ kvs ukvs, load_users fs = Json.obj kvs ∧
      lookupKey kvs "users" = some (Json.obj ukvs) := by
  have hempty : ∃ kvs ukvs, emptyStore = Json.obj kvs ∧
      lookupKey kvs "users" = some (Json.obj ukvs) :=
    ⟨[("users", Json.obj [])], [], rfl, by simp [lookupKey]⟩
  cases fs with
  | absent => exact hempty
  | unreadable => exact hempty
  | parsed data =>
    cases data with
    | obj kvs =>
      cases hl : lookupKey kvs "users" with
      | none => simpa [load_users, hl] using hempty
      | some u =>
        cases u with
        | obj ukvs => exact ⟨kvs, ukvs, by simp [load_users, hl], hl⟩
        | null =>
          exact ⟨_, [], by simp [load_users, hl],
            lookupKey_setKey_self kvs "users" (Json.obj [])⟩
        | bool b =>
          exact ⟨_, [], by simp [load_users, hl],
            lookupKey_setKey_self kvs "users" (Json.obj [])⟩
        | num q =>
          exact ⟨_, [], by simp [load_users, hl],
            lookupKey_setKey_self kvs "users" (Json.obj [])⟩
        | str s2 =>
          exact ⟨_, [], by simp [load_users, hl],
            lookupKey_setKey_self kvs "users" (Json.obj [])⟩
        | arr l =>
          exact ⟨_, [], by simp [load_users, hl],
            lookupKey_setKey_self kvs "users" (Json.obj [])⟩
    | null => exact hempty
    | bool b => exact hempty
    | num q => exact hempty
    | str s2 => exact hempty
    | arr l => exact hempty

/-- Claim C10: `set_user_pin` leaves the records of all other usernames in
the persisted store unchanged. -/
theorem set_user_pin_preserves_others (hash_pin : String → String) (fs : FileState)
    (u pin : String) (now : ℚ) (v : String) (hv : v ≠ u) :
    lookupKey (get_users (set_user_pin hash_pin fs u pin now)) v =
      lookupKey (get_users (load_users fs)) v := by
  obtain ⟨kvs, ukvs, hload, hu⟩ := load_users_shape fs
  simp only [set_user_pin, get_users, hload, setdefaultUsers, hu,
    lookupKey_setKey_self]
  rw [lookupKey_setKey_other ukvs u v _ hv]

/-- Witness for C10: registering bob does not change the record of
alice. -/
theorem set_user_pin_preserves_others_witness :
    ("alice" : String) ≠ "bob" ∧
    lookupKey (get_users (set_user_pin (fun _ => "h")
        (FileState.parsed (Json.obj [("users",
          Json.obj [("alice", Json.str "x")])])) "bob" "0101" 0)) "alice" =
      lookupKey (get_users (load_users (FileState.parsed (Json.obj [("users",
          Json.obj [("alice", Json.str "x")])])))) "alice" :=
  ⟨by decide,
   set_user_pin_preserves_others (fun _ => "h") _ "bob" "0101" 0 "alice" (by decide)⟩

/-- Counterexample for C7: a parsed JSON object with a malformed "users"
value and an extra top-level key does not load as the literal empty store:
the extra key is preserved. -/
theorem load_users_counterexample :
    load_users (FileState.parsed (Json.obj
      [("users", Json.num 5), ("legacy", Json.bool true)])) ≠ emptyStore :=
  fun h => absurd (congrArg topKeys h) (by decide)

/-- Amended claim C7: absent, unreadable, non-object, and no-"users"-key
files load as exactly the empty store; an object file whose "users" value
is present but not an object loads as the same object with "users" reset
to the empty mapping and all other top-level keys preserved; in every
case the loaded store is an object with an object-valued "users" entry. -/
theorem load_users_fallback :
    load_users FileState.absent = emptyStore
    ∧ load_users FileState.unreadable = emptyStore
    ∧ (∀ d : Json, jsonIsObj d = false → load_users (FileState.parsed d) = emptyStore)
    ∧ (∀ kvs : List (String × Json), lookupKey kvs "users" = none →
        load_users (FileState.parsed (Json.obj kvs)) = emptyStore)
    ∧ (∀ (kvs : List (String × Json)) (j : Json), lookupKey kvs "users" = some j →
        jsonIsObj j = false →
        load_users (FileState.parsed (Json.obj kvs)) =
          Json.obj (setKey kvs "users" (Json.obj [])))
    ∧ (∀ fs : FileState, ∃ kvs ukvs, load_users fs = Json.obj kvs ∧
        lookupKey kvs "users" = some (Json.obj ukvs)) := by
  refine ⟨rfl, rfl, ?_, ?_, ?_, load_users_shape⟩
  · intro d hd
    cases d <;> simp_all [load_users, jsonIsObj]
  · intro kvs hl
    simp [load_users, hl]
  · intro kvs j hl hj
    cases j <;> simp_all [load_users, jsonIsObj]

/-- Witness for the amended C7: a non-object file, an object file without
a "users" key, and an object file with a malformed "users" value. -/
theorem load_users_fallback_witness :
    load_users (FileState.parsed (Json.num 7)) = emptyStore
    ∧ load_users (FileState.parsed (Json.obj [("extra", Json.null)])) = emptyStore
    ∧ load_users (FileState.parsed (Json.obj [("users", Json.str "oops")])) =
        Json.obj (setKey [("users", Json.str "oops")] "users" (Json.obj [])) :=
  ⟨load_users_fallback.2.2.1 _ rfl,
   load_users_fallback.2.2.2.1 _ (by simp [lookupKey]),
   load_users_fallback.2.2.2.2.1 _ (Json.str "oops") (by simp [lookupKey]) rfl⟩

/-- Counterexample for C3: `set_user_pin` called directly with an empty
username does not fail and does mutate the store: it writes a record under
the empty key that was not there before. -/
theorem set_user_pin_empty_username_counterexample :
    (lookupKey (get_users (set_user_pin (fun _ => "h")
        FileState.absent "" "0101" 0)) "").isSome = true
    ∧ (lookupKey (get_users (load_users FileState.absent)) "").isSome = false := by
  constructor
  · simp [set_user_pin, load_users, emptyStore, setdefaultUsers, lookupKey,
      setKey, get_users]
  · simp [load_users, emptyStore, get_users, lookupKey]

/-- Amended claim C3: the empty-username rejection lives in the
registration flow, not in `set_user_pin`: `main_register` with an empty
username reports the error and leaves the file state untouched, while
`set_user_pin` itself, called with an empty username, always writes a
record under the empty key. -/
theorem registration_empty_username (hash_pin : String → String) :
    (∀ (blinks : List String) (fs : FileState) (now : ℚ),
        main_register hash_pin "" blinks fs now =
          (fs, RegistrationOutcome.empty_username))
    ∧ (∀ (fs : FileState) (pin : String) (now : ℚ),
        (lookupKey (get_users (set_user_pin hash_pin fs "" pin now)) "").isSome
          = true) := by
  constructor
  · intro blinks fs now
    rfl
  · intro fs pin now
    obtain ⟨kvs, ukvs, hload, hu⟩ := load_users_shape fs
    simp only [set_user_pin, get_users, hload, setdefaultUsers, hu,
      lookupKey_setKey_self, Option.isSome_some]

end MCAS
